import Mathlib

/-!
Verification of the transport controller of `src/ProjectAudioManager.h`
(Audacity's project audio manager).  The header gives the data model
(`PlayMode`, the boolean transport flags with their member initializers,
`RATE_NOT_SELECTED`, `PropertiesOfSelected` with its field defaults,
`RecordingDropoutEvent`) and declares the operations; the bodies of the
operations are not part of the repository snapshot, so they are modelled
from the specification where needed, as noted on each definition.
-/

namespace ProjectAudioManager

/-- The play mode enumeration of `ProjectAudioManager.h`, lines 31-36:
`normalPlay`, `oneSecondPlay`, `loopedPlay`, `cutPreviewPlay`. -/
inductive PlayMode where
  | normalPlay
  | oneSecondPlay
  | loopedPlay
  | cutPreviewPlay
deriving DecidableEq, Repr

/-- Sentinel for an unspecified sample rate, `ProjectAudioManager.h` line 21:
`constexpr int RATE_NOT_SELECTED{ -1 };`. -/
def RATE_NOT_SELECTED : Int := -1

/-- The mutable transport status record owned by `ProjectAudioManager`:
the data members of the class, `ProjectAudioManager.h` lines 173-184. -/
structure TransportState where
  mLastPlayMode : PlayMode
  mTimerRecordCanceled : Bool
  mPaused : Bool
  mAppending : Bool
  mLooping : Bool
  mCutting : Bool
  mStopping : Bool
  mDisplayedRate : Int
deriving DecidableEq, Repr

/-- The state of a freshly constructed `ProjectAudioManager`, given by the
member initializers at `ProjectAudioManager.h` lines 173-184:
`mLastPlayMode{ PlayMode::normalPlay }`, `mTimerRecordCanceled{ false }`,
`mPaused{ false }`, `mAppending{ false }`, `mLooping{ false }`,
`mCutting{ false }`, `mStopping{ false }`, `mDisplayedRate{ 0 }`. -/
def initialState : TransportState :=
  { mLastPlayMode := PlayMode.normalPlay
    mTimerRecordCanceled := false
    mPaused := false
    mAppending := false
    mLooping := false
    mCutting := false
    mStopping := false
    mDisplayedRate := 0 }

/-- Modelled from the spec: the entry action of `ProjectAudioManager::Stop`
(body not under `src/`).  Spec 4.2: "Sets `stopping=true` for the duration
of the sequence." -/
def stopEntry (s : TransportState) : TransportState :=
  { s with mStopping := true }

/-- Modelled from the spec: `ProjectAudioManager::Stop` (declared at
`ProjectAudioManager.h` line 142; body not under `src/`).  Spec 4.2:
"Sets `stopping=true` for the duration of the sequence.  If `stopStream`,
requests the engine halt the active stream.  Regardless, resets
`paused=false`, `appending=false`, `looping=false`, `cutting=false` as the
terminal action, then clears `stopping=false`."  The engine-halt request
does not touch `TransportState`, so the two branches of `stopStream` agree
on the state. -/
def stop (s : TransportState) (stopStream : Bool) : TransportState :=
  let s1 := stopEntry s
  let s2 :=
    if stopStream then s1 else s1   -- engine halt request: no state effect
  let s3 := { s2 with
    mPaused := false
    mAppending := false
    mLooping := false
    mCutting := false }
  { s3 with mStopping := false }

/-- All five transport flags of a state are clear (the post-`Stop`
quiescent condition of spec 8). -/
def flagsClear (s : TransportState) : Prop :=
  s.mPaused = false ∧ s.mAppending = false ∧ s.mLooping = false ∧
  s.mCutting = false ∧ s.mStopping = false

instance (s : TransportState) : Decidable (flagsClear s) := by
  unfold flagsClear; infer_instance

/-- Modelled from the spec: `ProjectAudioManager::OnPause` / `Pause`
(declared at `ProjectAudioManager.h` lines 136-139; bodies not under
`src/`).  Spec 4.2: "Pause / OnPause: toggles `paused`." -/
def pause (s : TransportState) : TransportState :=
  { s with mPaused := !s.mPaused }

/-- Modelled from the spec: the `TransportState` effect of
`ProjectAudioManager::PlayPlayRegion` (declared at `ProjectAudioManager.h`
lines 125-128; body not under `src/`).  Spec 4.2: "Sets
`lastPlayMode = mode`; sets `looping = (mode == LoopedPlay)`,
`cutting = (mode == CutPreviewPlay)`.  Delegates to the external I/O
engine to begin a stream with the resolved tracks and options.  Returns a
stream-identifying token (or a null/invalid token on failure — e.g., no
tracks resolved, engine refused)."  The resolution of playback tracks and
the engine's answer are external inputs, abstracted by `tracksResolved`
and `engineToken` (`none` meaning the engine refused); the returned token
is `none` on failure. -/
def playPlayRegion (s : TransportState) (mode : PlayMode)
    (tracksResolved : Bool) (engineToken : Option Nat) :
    TransportState × Option Nat :=
  let s' := { s with
    mLastPlayMode := mode
    mLooping := mode = PlayMode.loopedPlay
    mCutting := mode = PlayMode.cutPreviewPlay }
  (s', if tracksResolved then engineToken else none)

/-- A track of the project's track collection as relevant to recording
rollback: an identifier plus the provisional marking of spec Glossary
("Provisional track: a track created speculatively for a recording
attempt, not yet confirmed durable"). -/
structure RecTrack where
  id : Nat
  provisional : Bool
deriving DecidableEq, Repr

/-- Modelled from the spec: `ProjectAudioManager::CancelRecording`
(declared at `ProjectAudioManager.h` lines 158-159; body not under
`src/`).  Spec 4.2: "discards any newly-created-but-not-yet-committed
recording tracks ... Must be safe to call even if no new tracks exist
(no-op)."  It keeps exactly the non-provisional tracks of the project's
collection. -/
def cancelRecording (tracks : List RecTrack) : List RecTrack :=
  tracks.filter (fun t => !t.provisional)

/-- Modelled from the spec: `ProjectAudioManager::DoRecord` (declared at
`ProjectAudioManager.h` lines 119-123; body not under `src/`).  Spec 4.2:
"if `transportTracks` provides no capture tracks, the controller must
first materialize brand-new tracks (side effect: project track collection
gains entries) ... Sets `appending` true only if capture tracks were
pre-existing (append case) and false if new tracks were created ...
Delegates stream start to the engine ... On failure to start ... rolls
back any newly created tracks, leaves TransportState unchanged, reports
failure to the caller."  `captureProvided` abstracts whether
`transportTracks` held pre-existing capture tracks, `newTracks` the
brand-new tracks materialized otherwise (marked provisional), and
`engineOk` the engine's answer to the stream-start request.  Returns the
final transport state, the project's track collection, and the success
report. -/
def doRecord (s : TransportState) (projTracks : List RecTrack)
    (captureProvided : Bool) (newTracks : List Nat) (engineOk : Bool) :
    TransportState × List RecTrack × Bool :=
  let created :=
    if captureProvided then []
    else newTracks.map (fun i => ({ id := i, provisional := true } : RecTrack))
  let tracks1 := projTracks ++ created
  if engineOk then
    ({ s with mAppending := captureProvided }, tracks1, true)
  else
    (s, cancelRecording tracks1, false)

/-- A transport command, for stating properties over every preceding
sequence of Play/Record/Pause/Stop commands (spec 8).  The external
inputs of each command (resolved tracks, engine answers) are carried in
the command. -/
inductive TransportCmd where
  | playCmd (mode : PlayMode) (tracksResolved : Bool) (engineToken : Option Nat)
  | recordCmd (captureProvided : Bool) (engineOk : Bool)
  | pauseCmd
  | stopCmd (stopStream : Bool)
deriving DecidableEq, Repr

/-- The `TransportState` effect of one transport command. -/
def applyCmd (s : TransportState) : TransportCmd → TransportState
  | TransportCmd.playCmd mode tracksResolved engineToken =>
      (playPlayRegion s mode tracksResolved engineToken).1
  | TransportCmd.recordCmd captureProvided engineOk =>
      (doRecord s [] captureProvided [] engineOk).1
  | TransportCmd.pauseCmd => pause s
  | TransportCmd.stopCmd stopStream => stop s stopStream

/-- The `TransportState` after running a sequence of transport commands. -/
def runCmds (s : TransportState) (cmds : List TransportCmd) : TransportState :=
  cmds.foldl applyCmd s

/-- A wave track as relevant to recording-track selection: selection
status, writability and sample rate (rates are integers, matching the
`int`-valued `RATE_NOT_SELECTED` sentinel of `ProjectAudioManager.h`
line 21). -/
structure WaveTrack where
  id : Nat
  selected : Bool
  writable : Bool
  rate : Int
deriving DecidableEq, Repr

/-- Modelled from the spec:
`ProjectAudioManager::ChooseExistingRecordingTracks` (declared at
`ProjectAudioManager.h` lines 77-80; body not under `src/`).  Spec 4.1:
"Selection rule: if `selectedOnly`, restrict to the current selection;
otherwise consider all tracks.  A track qualifies only if it is writable
and, when `targetRate` is specified (not the sentinel 'unspecified'), its
rate matches `targetRate`.  Returns an empty result (not an error) when
no track qualifies."  The default argument of the declaration is
`targetRate = RATE_NOT_SELECTED`.  `qualifiesForRecording` is the
per-track selection rule; the operation filters the track collection by
it. -/
def qualifiesForRecording (selectedOnly : Bool) (targetRate : Int)
    (t : WaveTrack) : Bool :=
  t.writable && (!selectedOnly || t.selected) &&
    (targetRate = RATE_NOT_SELECTED || t.rate = targetRate)

/-- Modelled from the spec: the track-collection filter of
`ProjectAudioManager::ChooseExistingRecordingTracks`; see
`qualifiesForRecording`. -/
def chooseExistingRecordingTracks (tracks : List WaveTrack)
    (selectedOnly : Bool) (targetRate : Int) : List WaveTrack :=
  tracks.filter (qualifiesForRecording selectedOnly targetRate)

/-- Recording-track selection with no rate filter at all, following the
spec's words in property 8: "`chooseExistingRecordingTracks` with
`targetRate = unspecified` returns the same result as omitting the rate
filter"; stated for comparison with `chooseExistingRecordingTracks`. -/
def chooseExistingRecordingTracksNoRateFilter (tracks : List WaveTrack)
    (selectedOnly : Bool) : List WaveTrack :=
  tracks.filter fun t => t.writable && (!selectedOnly || t.selected)

/-- The result record of `GetPropertiesOfSelected`, with the field
defaults of `ProjectAudioManager.h` lines 198-203: `allSameRate{ false }`,
`rateOfSelected{ RATE_NOT_SELECTED }`, `numberOfSelected{ 0 }`. -/
structure PropertiesOfSelected where
  allSameRate : Bool := false
  rateOfSelected : Int := RATE_NOT_SELECTED
  numberOfSelected : Nat := 0
deriving DecidableEq, Repr

/-- Modelled from the spec: `GetPropertiesOfSelected` (declared at
`ProjectAudioManager.h` line 206; body not under `src/`).  Spec 4.1:
"scans current selection once, returns uniformity-of-rate, the common
rate (or 'unspecified' if mixed or empty), and the count.  No mutation,
no side effects."; spec 8 fixes the empty case:
"`getPropertiesOfSelected` on an empty selection returns
`allSameRate=false, rateOfSelected=unspecified, numberOfSelected=0`."
The argument is the list of currently selected tracks of the project. -/
def getPropertiesOfSelected (selectedTracks : List WaveTrack) :
    PropertiesOfSelected :=
  match selectedTracks with
  | [] => {}
  | t :: rest =>
      let uniform := rest.all fun u => u.rate = t.rate
      { allSameRate := uniform
        rateOfSelected := if uniform then t.rate else RATE_NOT_SELECTED
        numberOfSelected := selectedTracks.length }

/-- A dropout interval: start time and duration
(`RecordingDropoutEvent::Interval`, `ProjectAudioManager.h` line 50).
The `double` endpoints are modelled as rationals. -/
def Interval : Type := Rat × Rat
deriving DecidableEq, Repr

/-- The notification posted after recording has stopped when dropouts
were detected (`RecordingDropoutEvent`, `ProjectAudioManager.h` lines
46-66): it carries the list of intervals, documented "Disjoint and
sorted increasingly". -/
structure RecordingDropoutEvent where
  intervals : List Interval
deriving DecidableEq, Repr

/-- Intervals are disjoint and sorted increasingly: each interval ends no
later than the next one starts (the documented invariant of
`RecordingDropoutEvent.intervals`, `ProjectAudioManager.h` line 64). -/
def disjointSorted : List Interval → Prop
  | [] => True
  | [_] => True
  | (s1, d1) :: (s2, d2) :: rest =>
      s1 + d1 ≤ s2 ∧ disjointSorted ((s2, d2) :: rest)

/-- Rational addition through `mkRat`, equal to `+` by `Rat.add_def'`;
used so that the decidability of `disjointSorted` evaluates by kernel
reduction on concrete inputs. -/
def ratAdd (a b : Rat) : Rat :=
  mkRat (a.num * b.den + b.num * a.den) (a.den * b.den)

theorem ratAdd_eq_add (a b : Rat) : a + b = ratAdd a b :=
  Rat.add_def' a b

instance disjointSortedDec : (l : List Interval) → Decidable (disjointSorted l)
  | [] => Decidable.isTrue trivial
  | [_] => Decidable.isTrue trivial
  | (s1, d1) :: (s2, d2) :: rest =>
      have h1 : Decidable (s1 + d1 ≤ s2) :=
        decidable_of_iff (Rat.blt s2 (ratAdd s1 d1) = false)
          (by rw [← ratAdd_eq_add]; exact Iff.rfl)
      have h2 : Decidable (disjointSorted ((s2, d2) :: rest)) :=
        disjointSortedDec ((s2, d2) :: rest)
      instDecidableAnd

/-- Modelled from the spec: the dropout side of
`ProjectAudioManager::OnAudioIOStopRecording` (declared at
`ProjectAudioManager.h` line 164; body not under `src/`).  Spec 4.3:
"engine confirms recording ended — controller aggregates any dropout
intervals observed during the session into a RecordingDropoutEvent
(non-empty intervals only) and forwards it ...; if no dropouts occurred,
no event is emitted."  Spec 3: "a fresh list is built each session; no
accumulation across sessions"; spec 6: "delivery is at-most-once per
recording session".  The argument is the session's collected gap list;
the result is the emitted event (if any) and the session gap list after
the stop, cleared for the next session. -/
def onAudioIOStopRecording (sessionGaps : List Interval) :
    Option RecordingDropoutEvent × List Interval :=
  if sessionGaps.isEmpty then (none, [])
  else (some { intervals := sessionGaps }, [])

/-- C1: after every call to `Stop` — whatever the flags before the call
and whatever preceding sequence of Play/Record/Pause commands produced
the pre-call state — `paused`, `appending`, `looping`, `cutting` and
`stopping` are all false; `stopping` is set true at entry to the `Stop`
sequence and is cleared (false in the final state) as the final action. -/
theorem stop_clears_all_flags (s0 : TransportState)
    (cmds : List TransportCmd) (stopStream : Bool) :
    flagsClear (stop (runCmds s0 cmds) stopStream) ∧
    (stopEntry (runCmds s0 cmds)).mStopping = true ∧
    (stop (runCmds s0 cmds) stopStream).mStopping = false := by
  refine ⟨?_, rfl, ?_⟩ <;> cases stopStream <;>
    simp [stop, stopEntry, flagsClear]

/-- C2: `Stop` is idempotent — invoking it twice in a row with no
Play/Record in between equals invoking it once — and calling `Stop` when
nothing is active (all transport flags already clear) is a safe no-op. -/
theorem stop_idempotent (s : TransportState) (b b' : Bool) :
    stop (stop s b) b' = stop s b ∧
    (flagsClear s → stop s b = s) := by
  constructor
  · cases b <;> cases b' <;> rfl
  · intro h
    obtain ⟨h1, h2, h3, h4, h5⟩ := h
    cases s
    simp_all [stop, stopEntry]

theorem stop_idempotent_witness :
    stop (stop initialState true) false = stop initialState true ∧
    stop initialState true = initialState :=
  ⟨(stop_idempotent initialState true false).1,
   (stop_idempotent initialState true false).2 (by decide)⟩

/-- C3: when the engine start fails, `DoRecord` rolls back any newly
created provisional tracks (the project's track collection is as at
entry, provided the project held no uncommitted provisional tracks
beforehand), leaves `TransportState` unchanged, and reports failure. -/
theorem doRecord_failure_rolls_back (s : TransportState)
    (projTracks : List RecTrack) (captureProvided : Bool)
    (newTracks : List Nat)
    (h : ∀ t ∈ projTracks, t.provisional = false) :
    doRecord s projTracks captureProvided newTracks false =
      (s, projTracks, false) := by
  have hself : projTracks.filter (fun t => !t.provisional) = projTracks := by
    rw [List.filter_eq_self]
    intro t ht
    simp [h t ht]
  have hmap : ∀ l : List Nat,
      (l.map fun i => ({ id := i, provisional := true } : RecTrack)).filter
        (fun t => !t.provisional) = [] := by
    intro l
    induction l with
    | nil => rfl
    | cons a l ih => simp [List.filter_cons, ih]
  cases captureProvided <;>
    simp [doRecord, cancelRecording, List.filter_append, hself, hmap]

theorem doRecord_failure_rolls_back_witness :
    doRecord initialState [{ id := 0, provisional := false }] false
        [1, 2] false =
      (initialState, [{ id := 0, provisional := false }], false) :=
  doRecord_failure_rolls_back initialState
    [{ id := 0, provisional := false }] false [1, 2] (by decide)

/-- C4: when the engine confirms the stop of recording, a
`RecordingDropoutEvent` is emitted iff the session's collected gap list
is non-empty; the emitted event's intervals equal exactly the reported
gap sequence and are disjoint and sorted increasingly (given the
engine-reported gaps are); the session list is cleared, so delivery is
at most once per session and nothing accumulates across sessions. -/
theorem onAudioIOStopRecording_dropout_spec (gaps : List Interval) :
    ((onAudioIOStopRecording gaps).1.isSome = true ↔ gaps ≠ []) ∧
    (gaps ≠ [] → (onAudioIOStopRecording gaps).1 =
      some { intervals := gaps }) ∧
    (disjointSorted gaps → ∀ e,
      (onAudioIOStopRecording gaps).1 = some e →
      disjointSorted e.intervals) ∧
    (onAudioIOStopRecording gaps).2 = [] ∧
    (onAudioIOStopRecording (onAudioIOStopRecording gaps).2).1 = none := by
  refine ⟨?_, ?_, ?_, ?_, ?_⟩
  · cases gaps <;> simp [onAudioIOStopRecording]
  · intro hne
    cases gaps with
    | nil => exact absurd rfl hne
    | cons g gs => rfl
  · intro hd e he
    cases gaps with
    | nil => simp [onAudioIOStopRecording] at he
    | cons g gs =>
        have h2 : ({ intervals := g :: gs } : RecordingDropoutEvent) = e :=
          Option.some.inj he
        rw [← h2]
        exact hd
  · cases gaps <;> simp [onAudioIOStopRecording]
  · cases gaps <;> simp [onAudioIOStopRecording]

/-- The spec's example gap list for one recording session:
`[(1.0, 0.2), (3.0, 0.1)]`, the durations written as the rationals
`1/5` and `1/10` (through `mkRat`, which evaluates by kernel
reduction). -/
def exampleGaps : List Interval := [(1, mkRat 1 5), (3, mkRat 1 10)]

theorem onAudioIOStopRecording_dropout_spec_witness :
    (onAudioIOStopRecording exampleGaps).1.isSome = true ∧
    (onAudioIOStopRecording exampleGaps).1 =
      some { intervals := exampleGaps } ∧
    disjointSorted (RecordingDropoutEvent.mk exampleGaps).intervals :=
  ⟨(onAudioIOStopRecording_dropout_spec exampleGaps).1.mpr (by decide),
   (onAudioIOStopRecording_dropout_spec exampleGaps).2.1 (by decide),
   (onAudioIOStopRecording_dropout_spec exampleGaps).2.2.1 (by decide)
     (RecordingDropoutEvent.mk exampleGaps) rfl⟩

/-- C5: `ChooseExistingRecordingTracks` with the `RATE_NOT_SELECTED`
sentinel equals the selection with no rate filter at all; with a specific
target rate it never returns a track whose rate differs; and when no
track qualifies it returns the empty list rather than an error. -/
theorem chooseExistingRecordingTracks_spec (tracks : List WaveTrack)
    (selectedOnly : Bool) :
    chooseExistingRecordingTracks tracks selectedOnly RATE_NOT_SELECTED =
      chooseExistingRecordingTracksNoRateFilter tracks selectedOnly ∧
    (∀ targetRate, targetRate ≠ RATE_NOT_SELECTED →
      ∀ t ∈ chooseExistingRecordingTracks tracks selectedOnly targetRate,
        t.rate = targetRate) ∧
    (∀ targetRate,
      (∀ t ∈ tracks,
        qualifiesForRecording selectedOnly targetRate t = false) →
      chooseExistingRecordingTracks tracks selectedOnly targetRate = []) := by
  refine ⟨?_, ?_, ?_⟩
  · simp only [chooseExistingRecordingTracks,
      chooseExistingRecordingTracksNoRateFilter]
    apply List.filter_congr
    intro t _
    simp [qualifiesForRecording, RATE_NOT_SELECTED]
  · intro targetRate hne t ht
    simp only [chooseExistingRecordingTracks, List.mem_filter,
      qualifiesForRecording, Bool.and_eq_true, Bool.or_eq_true,
      decide_eq_true_eq] at ht
    rcases ht.2.2 with h | h
    · exact absurd h hne
    · exact h
  · intro targetRate hall
    simpa [chooseExistingRecordingTracks, List.filter_eq_nil_iff]
      using hall

/-- Three demonstration tracks for the recording-track selection: a
selected writable track at rate 44100, an unselected writable track at
rate 48000, and a selected non-writable track at rate 44100. -/
def demoTracks : List WaveTrack :=
  [{ id := 0, selected := true, writable := true, rate := 44100 },
   { id := 1, selected := false, writable := true, rate := 48000 },
   { id := 2, selected := true, writable := false, rate := 44100 }]

theorem chooseExistingRecordingTracks_spec_witness :
    chooseExistingRecordingTracks demoTracks true RATE_NOT_SELECTED =
      chooseExistingRecordingTracksNoRateFilter demoTracks true ∧
    ({ id := 0, selected := true, writable := true, rate := 44100 } :
      WaveTrack).rate = 44100 ∧
    chooseExistingRecordingTracks demoTracks true 32000 = [] :=
  ⟨(chooseExistingRecordingTracks_spec demoTracks true).1,
   (chooseExistingRecordingTracks_spec demoTracks true).2.1 44100
     (by decide)
     { id := 0, selected := true, writable := true, rate := 44100 }
     (by decide),
   (chooseExistingRecordingTracks_spec demoTracks true).2.2 32000
     (by decide)⟩

/-- C6: `PlayPlayRegion` sets `lastPlayMode` to the given mode, sets
`looping` true exactly when the mode is `loopedPlay` and `cutting` true
exactly when the mode is `cutPreviewPlay`, and returns the engine's
stream token, or the invalid token (`none`) when no tracks resolved or
the engine refused. -/
theorem playPlayRegion_spec (s : TransportState) (mode : PlayMode)
    (tracksResolved : Bool) (engineToken : Option Nat) :
    ((playPlayRegion s mode tracksResolved engineToken).1.mLastPlayMode
        = mode) ∧
    ((playPlayRegion s mode tracksResolved engineToken).1.mLooping = true
        ↔ mode = PlayMode.loopedPlay) ∧
    ((playPlayRegion s mode tracksResolved engineToken).1.mCutting = true
        ↔ mode = PlayMode.cutPreviewPlay) ∧
    ((playPlayRegion s mode tracksResolved engineToken).2 =
        if tracksResolved then engineToken else none) := by
  refine ⟨rfl, ?_, ?_, rfl⟩ <;> simp [playPlayRegion]

theorem playPlayRegion_spec_witness :
    (playPlayRegion initialState PlayMode.loopedPlay true
        (some 7)).1.mLooping = true ∧
    (playPlayRegion initialState PlayMode.loopedPlay true (some 7)).2 =
      if true then some 7 else none :=
  ⟨(playPlayRegion_spec initialState PlayMode.loopedPlay true
      (some 7)).2.1.mpr rfl,
   (playPlayRegion_spec initialState PlayMode.loopedPlay true
      (some 7)).2.2.2⟩

/-- C7: `DoRecord` sets the `appending` flag true exactly when the
supplied transport tracks provided pre-existing capture tracks (the
append case) and false when brand-new tracks had to be created; on an
engine-start failure the flag keeps its entry value (the state is left
unchanged). -/
theorem doRecord_appending_spec (s : TransportState)
    (projTracks : List RecTrack) (captureProvided : Bool)
    (newTracks : List Nat) :
    ((doRecord s projTracks captureProvided newTracks true).1.mAppending
        = captureProvided) ∧
    ((doRecord s projTracks captureProvided newTracks false).1.mAppending
        = s.mAppending) := by
  exact ⟨rfl, rfl⟩

/-- C8: `GetPropertiesOfSelected` on an empty selection returns
`allSameRate = false`, `rateOfSelected = RATE_NOT_SELECTED` and
`numberOfSelected = 0`; it is a pure function of the selection (no
mutation, no side effects in the model). -/
theorem getPropertiesOfSelected_empty :
    getPropertiesOfSelected [] =
      { allSameRate := false, rateOfSelected := RATE_NOT_SELECTED,
        numberOfSelected := 0 } :=
  rfl

/-- C9: `CancelRecording` is safe in every state: when no provisional
(newly created, uncommitted) tracks exist it is a no-op; it never
invents tracks, every track it keeps was in the collection and is
non-provisional, and it removes only provisional tracks (every
non-provisional track is retained). -/
theorem cancelRecording_safe (tracks : List RecTrack) :
    ((∀ t ∈ tracks, t.provisional = false) →
      cancelRecording tracks = tracks) ∧
    (∀ t ∈ cancelRecording tracks, t ∈ tracks ∧ t.provisional = false) ∧
    (∀ t ∈ tracks, t.provisional = false → t ∈ cancelRecording tracks) := by
  refine ⟨?_, ?_, ?_⟩
  · intro h
    simpa [cancelRecording, List.filter_eq_self] using h
  · intro t ht
    simpa [cancelRecording, List.mem_filter] using ht
  · intro t ht hp
    simp [cancelRecording, List.mem_filter, ht, hp]

theorem cancelRecording_safe_witness :
    cancelRecording [{ id := 0, provisional := false }] =
      [{ id := 0, provisional := false }] ∧
    ({ id := 0, provisional := false } : RecTrack) ∈
      cancelRecording [{ id := 0, provisional := false }] :=
  ⟨(cancelRecording_safe [{ id := 0, provisional := false }]).1
      (by decide),
   (cancelRecording_safe [{ id := 0, provisional := false }]).2.2
      { id := 0, provisional := false } (by decide) (by decide)⟩

/-- C10: a freshly constructed `ProjectAudioManager` starts with
`paused`, `appending`, `looping`, `cutting`, `stopping` and the
timer-record-cancelled flag all false, `lastPlayMode = normalPlay` and
`displayedRate = 0` — exactly the post-`Stop` quiescent state: `Stop`
applied to the initial state leaves it unchanged. -/
theorem initialState_spec (stopStream : Bool) :
    initialState.mPaused = false ∧ initialState.mAppending = false ∧
    initialState.mLooping = false ∧ initialState.mCutting = false ∧
    initialState.mStopping = false ∧
    initialState.mTimerRecordCanceled = false ∧
    initialState.mLastPlayMode = PlayMode.normalPlay ∧
    initialState.mDisplayedRate = 0 ∧
    stop initialState stopStream = initialState := by
  refine ⟨rfl, rfl, rfl, rfl, rfl, rfl, rfl, rfl, ?_⟩
  cases stopStream <;> rfl

end ProjectAudioManager
